import Mathlib

/-!
Shallow embedding of `scripts/orchestrate_queue.py` (task-queue orchestrator).

Conventions of the embedding:
* A queue payload is a `List RawTask`; a `RawTask` models one JSON task record
  after Python's `str(...)` coercions (`t.get("id", "")` etc.).  Timestamp
  fields (`started_at`, `blocked_at`, `completed_at`) carry no information any
  claim depends on and are not modelled on the record.
* File contents are `String`s; a file that may be absent is `Option String`.
  Line splitting follows the newline character, mirroring the source's use of
  `splitlines` on files this program itself writes.
* External observations made by the event loop (sentinel files, process exit,
  `git rev-parse` output, the worker log) are supplied by a `World` record of
  functions keyed by task id or branch name; this replaces the subprocess and
  filesystem reads of the source with explicit inputs.
* Side effects (writes, commits, worktree operations, prints, spawns) are
  reified as an `Effect` list so that frame claims (what a run does NOT touch)
  are statable.
-/

namespace Orchestrate

/-! ### Small string helpers (Python `str` methods used by the source)

These are written over `String.data` (`List Char`) rather than the library's
`String` functions so that every definition evaluates inside the kernel.  The
strings this program handles are ASCII, so the ASCII case maps model
Python's `str.lower`/`str.upper` faithfully. -/

/-- The whitespace set of Python's `str.strip`. -/
def pyIsSpace (c : Char) : Bool :=
  c = ' ' || c = '\t' || c = '\n' || c = '\r' || c = '\x0b' || c = '\x0c'

/-- Strip leading and trailing whitespace from a character list. -/
def stripChars (cs : List Char) : List Char :=
  ((cs.dropWhile pyIsSpace).reverse.dropWhile pyIsSpace).reverse

/-- Python `str.strip()`. -/
def pyStrip (s : String) : String := String.mk (stripChars s.data)

/-- ASCII lower-casing of one character. -/
def asciiLower (c : Char) : Char :=
  if 'A' ≤ c ∧ c ≤ 'Z' then Char.ofNat (c.toNat + 32) else c

/-- ASCII upper-casing of one character. -/
def asciiUpper (c : Char) : Char :=
  if 'a' ≤ c ∧ c ≤ 'z' then Char.ofNat (c.toNat - 32) else c

/-- Python `str.lower()` (ASCII). -/
def pyLower (s : String) : String := String.mk (s.data.map asciiLower)

/-- Python `str.upper()` (ASCII). -/
def pyUpper (s : String) : String := String.mk (s.data.map asciiUpper)

/-- Python `s.startswith(pre)`. -/
def pyStartsWith (s pre : String) : Bool := pre.data.isPrefixOf s.data

/-- Python `s.endswith(suf)`. -/
def pyEndsWith (s suf : String) : Bool := suf.data.reverse.isPrefixOf s.data.reverse

/-- Python `c in s` for a single character. -/
def containsChar (s : String) (c : Char) : Bool := s.data.contains c

/-- Split a character list at every occurrence of `c` (Python `s.split(c)`). -/
def splitCharAux (c : Char) : List Char → List Char → List (List Char)
  | [], acc => [acc.reverse]
  | x :: xs, acc =>
    if x = c then acc.reverse :: splitCharAux c xs []
    else splitCharAux c xs (x :: acc)

/-- Python `s.split(c)` for a one-character separator. -/
def pySplitChar (c : Char) (s : String) : List String :=
  (splitCharAux c s.data []).map String.mk

/-- Join character lists with a one-character separator. -/
def joinSep (c : Char) : List (List Char) → List Char
  | [] => []
  | [x] => x
  | x :: xs => x ++ c :: joinSep c xs

/-- Python `c.join(l)` for a one-character separator. -/
def pyJoin (c : Char) (l : List String) : String :=
  String.mk (joinSep c (l.map String.data))

/-- Python `Path(p).name` for the slash-separated paths this program builds:
the last nonempty component (`Path("work/A").name = "A"`). -/
def pathBasename (s : String) : String :=
  ((pySplitChar '/' s).filter (fun c => c ≠ "")).getLastD s

/-- Python `str.splitlines` restricted to `\n` separators (the only separator
in files this program writes): split on newlines, dropping the trailing empty
segment produced by a terminal newline. -/
def pySplitlines (s : String) : List String :=
  if s = "" then []
  else
    let parts := pySplitChar '\n' s
    if parts.getLastD "" = "" then parts.dropLast else parts

/-! ### Task records -/

/-- One raw JSON task record, after the `str(t.get(...) or "")` coercions the
loader applies.  `order = none` models a missing or unparseable `order` field
(both fall back to the positional default in `_load_tasks`).  `blockers` and
`unblock_steps` are the diagnostic arrays `_update_task` patches write. -/
structure RawTask where
  id : String := ""
  order : Option Int := none
  status : String := ""
  depends_on : List String := []
  kickoff_prompt : String := ""
  type : String := ""
  worktree : String := ""
  workstream_id : String := ""
  blockers : List String := []
  unblock_steps : List String := []
  deriving DecidableEq, Repr

/-- The normalized in-memory task (dataclass `Task` of the source). -/
structure Task where
  id : String
  index : Nat
  order : Int
  status : String
  depends_on : List String
  kickoff_ref : String
  type : String
  worktree : String
  workstream_id : String
  deriving DecidableEq, Repr

/-- `_normalize_status`. -/
def normalize_status (s : String) : String :=
  let v := pyLower (pyStrip s)
  if v = "todo" ∨ v = "pending" then "pending"
  else if v = "in_progress" ∨ v = "in-progress" then "in_progress"
  else if v = "done" ∨ v = "completed" ∨ v = "complete" then "completed"
  else if v = "blocked" then "blocked"
  else if v = "deferred" then "deferred"
  else if v = "" then "pending" else v

/-- `_derive_workstream_id`. -/
def derive_workstream_id (t : RawTask) : String :=
  let ws := pyStrip t.workstream_id
  if ws ≠ "" then ws
  else
    let typ := pyLower (pyStrip t.type)
    if typ = "code" then "WS-CODE"
    else if typ = "test" then "WS-TEST"
    else if typ = "integration" then "WS-INT"
    else "WS-DEFAULT"

/-- `_load_tasks`, carrying the running enumeration index (records whose stripped id
is empty are skipped, but still occupy an index). -/
def loadTasksFrom : Nat → List RawTask → List Task
  | _, [] => []
  | idx, t :: ts =>
    let taskId := pyStrip t.id
    if taskId = "" then loadTasksFrom (idx + 1) ts
    else
      { id := taskId
        index := idx
        order := match t.order with
                 | some o => o
                 | none => ((idx : Int) + 1) * 10
        status := normalize_status (if t.status = "" then "pending" else t.status)
        depends_on := t.depends_on.filter (fun d => pyStrip d ≠ "")
        kickoff_ref := pyStrip t.kickoff_prompt
        type := pyStrip t.type
        worktree := pyStrip t.worktree
        workstream_id := derive_workstream_id t } :: loadTasksFrom (idx + 1) ts

/-- `_load_tasks` on a whole payload. -/
def load_tasks (p : List RawTask) : List Task := loadTasksFrom 0 p

/-- `_update_task`: patch the first record whose stripped id equals `taskId`.
The source raises `KeyError` when no record matches; every call site modelled
here targets an id known to be present, so the no-match case (returning the
payload unchanged) is unreachable in the modelled flows. -/
def update_task : List RawTask → String → (RawTask → RawTask) → List RawTask
  | [], _, _ => []
  | t :: ts, taskId, f =>
    if pyStrip t.id = taskId then f t :: ts
    else t :: update_task ts taskId f

/-- The `{"status": "in_progress", "started_at": ...}` patch. -/
def setInProgress (t : RawTask) : RawTask := { t with status := "in_progress" }

/-- The `{"status": "blocked", "blocked_at": ..., "blockers": ...,
"unblock_steps": ...}` patch. -/
def setBlocked (blockers steps : List String) (t : RawTask) : RawTask :=
  { t with status := "blocked", blockers := blockers, unblock_steps := steps }

/-- The `{"status": "completed", "completed_at": ...}` patch. -/
def setCompleted (t : RawTask) : RawTask := { t with status := "completed" }

/-- The filter half of `_runnable_tasks`: pending tasks all of whose
dependencies are in `done`. -/
def runnableFilter (tasks : List Task) (done : List String) : List Task :=
  tasks.filter (fun t => t.status == "pending" && t.depends_on.all (fun d => done.contains d))

/-- `_runnable_tasks`: Python's `sorted(..., key=lambda x: x.order)` is a
stable sort by `order`; `List.insertionSort` with `a.order ≤ b.order` is the
same stable sort. -/
def runnable_tasks (tasks : List Task) (done : List String) : List Task :=
  (runnableFilter tasks done).insertionSort (fun a b => a.order ≤ b.order)

/-- The set `{t.id for t in tasks_all if t.status == "completed"}` (as a list;
only membership is used). -/
def completedIds (tasksAll : List Task) : List String :=
  (tasksAll.filter (fun t => t.status == "completed")).map (fun t => t.id)

/-- `_active_workstreams` (as a list; only membership is used). -/
def active_workstreams (p : List RawTask) : List String :=
  (p.filter (fun t => normalize_status t.status == "in_progress")).map derive_workstream_id

/-- `_role_label`. -/
def role_label (taskType : String) : String :=
  let v := pyLower (pyStrip taskType)
  if v = "code" then "Code"
  else if v = "test" then "Test"
  else if v = "integration" then "Integration"
  else "Agent"

/-- `_looks_like_path`: `("/" in s or s.endswith(".md") or s.endswith(".txt"))
and not s.startswith("#")`, on the stripped string. -/
def looks_like_path (s : String) : Bool :=
  let s := pyStrip s
  (containsChar s '/' || pyEndsWith s ".md" || pyEndsWith s ".txt") && !(pyStartsWith s "#")

/-- `_load_kickoff_text`; `exists?`/`read` stand for the filesystem, and path
joining models `repo_root / ref`. -/
def load_kickoff_text (exists? : String → Bool) (read : String → String)
    (repoRoot kickoffRef : String) : String :=
  let ref := pyStrip kickoffRef
  if ref = "" then ""
  else if looks_like_path ref then
    let p := repoRoot ++ "/" ++ ref
    if exists? p then read p else ref
  else ref

/-- `_tail_lines`: the log as a line list (`none` = the read raised).
`data[-n:]` is `drop (length - n)` for the call site's `n = 200 ≥ 1`. -/
def tail_lines (log : Option (List String)) (n : Nat) : String :=
  match log with
  | none => ""
  | some data =>
    pyJoin '\n' (data.drop (data.length - n)) ++ (if data.isEmpty then "" else "\n")

/-! ### DONE sentinel parsing (lines 593-598 of the source) -/

/-- One `k=v` line of the DONE sentinel; lines without `=` are skipped and the
value is everything after the first `=` (Python `line.split("=", 1)`). -/
def doneInfoPairs (lines : List String) : List (String × String) :=
  lines.filterMap (fun line =>
    match pySplitChar '=' line with
    | [] => none
    | [_] => none
    | k :: rest => some (pyStrip k, pyStrip (pyJoin '=' rest)))

/-- Dict lookup on the parsed sentinel: the last assignment to a key wins. -/
def doneInfoGet (lines : List String) (key : String) : Option String :=
  ((doneInfoPairs lines).reverse.find? (fun kv => kv.1 = key)).map (fun kv => kv.2)

/-! ### Blocker-line extraction (`_session_log_end`, lines 286-293)

The source searches the worker's last message with the raw-string regex
`r"(?im)^-\\s*\\*\\*Blocker[s]?\\*\\*:\\s*(.*)$"`.  Because it is a raw
string, each `\\` is the regex escape for ONE LITERAL BACKSLASH, and the
following `s` and `*` are an ordinary character and quantifier.  Read as a
regex the pattern is therefore, case-insensitively and anchored at a line
start: `-`, one `\`, zero or more `s`, zero or more `\` (two starred
backslash groups), `Blocker`, an optional `s`, zero or more `\`, `:`, one
`\`, zero or more `s`, then the capture to end of line.  All of the
alternating character classes are disjoint, so the greedy left-to-right
match below is exact. -/

/-- Case-insensitive literal match; returns the unread rest on success. -/
def matchLiteralCI : List Char → List Char → Option (List Char)
  | [], cs => some cs
  | _ :: _, [] => none
  | p :: ps, c :: cs => if asciiLower c = asciiLower p then matchLiteralCI ps cs else none

/-- Drop a run of `s`/`S` (case-insensitive `s*` after the mandatory `\`). -/
def dropRunS (cs : List Char) : List Char := cs.dropWhile (fun c => asciiLower c = 's')

/-- Drop a run of backslashes (the starred `\\*` groups). -/
def dropRunBS (cs : List Char) : List Char := cs.dropWhile (fun c => c = '\\')

/-- The `[s]?` option. -/
def dropOptS : List Char → List Char
  | [] => []
  | c :: cs => if asciiLower c = 's' then cs else c :: cs

/-- Match one line against the source's blocker pattern, returning the capture
group (everything after the final `\s*`). -/
def matchBlockerLine (cs : List Char) : Option String :=
  match cs with
  | '-' :: '\\' :: rest0 =>
    match matchLiteralCI "Blocker".data (dropRunBS (dropRunS rest0)) with
    | none => none
    | some rest1 =>
      match dropRunBS (dropOptS rest1) with
      | ':' :: '\\' :: rest2 => some (String.mk (dropRunS rest2))
      | _ => none
  | _ => none

/-- The `- Blockers:` line `_session_log_end` appends: `re.search` with the
multiline flag matches the first line (segment between newlines) accepted by
the pattern; an empty, `none` or `<none>` capture collapses to `none`.
The input is the last-message file content (`none` = the file is absent). -/
def blockersLineOf (lastMessage : Option String) : String :=
  match lastMessage with
  | none => "- Blockers: none"
  | some msg =>
    match (pySplitChar '\n' msg).findSome? (fun l => matchBlockerLine l.data) with
    | none => "- Blockers: none"
    | some g =>
      let tl := pyStrip g
      if tl ≠ "" ∧ pyLower tl ≠ "none" ∧ pyLower tl ≠ "<none>" then
        "- Blockers: " ++ tl
      else "- Blockers: none"

/-- The `≤ 40`-line snippet of the worker's last message. -/
def snippetOf (msg : String) : String :=
  pyStrip (pyJoin '\n' ((pySplitlines (pyStrip msg)).take 40))

/-- `_session_log_start`'s entry text (`now` stands for the strftime stamp). -/
def sessionStartText (now role taskId baseBranch kickoffRef wt : String) : String :=
  pyJoin '\n'
    ["## [" ++ now ++ "] " ++ role ++ " Agent – " ++ taskId ++ " – START",
     "- Orchestrator: set `" ++ taskId ++ "` → `in_progress` in `tasks.json`",
     "- Base branch: `" ++ baseBranch ++ "`",
     "- Kickoff prompt: `" ++ kickoffRef ++ "`",
     (if wt ≠ "" then "- Worktree: `" ++ wt ++ "`" else "- Worktree: N/A"),
     "- Blockers: none",
     ""]

/-- `_session_log_end`'s entry text. -/
def sessionEndText (now role taskId wt lastMessagePath : String)
    (extra : List String) (lastMessage : Option String) : String :=
  let snippet := match lastMessage with
                 | some msg => snippetOf msg
                 | none => ""
  pyJoin '\n'
    (["## [" ++ now ++ "] " ++ role ++ " Agent – " ++ taskId ++ " – END",
      (if wt ≠ "" then "- Worktree: `" ++ wt ++ "`" else "- Worktree: N/A"),
      "- Worker output: `" ++ lastMessagePath ++ "`"]
     ++ extra
     ++ (if snippet ≠ "" then ["- Worker summary (first ~40 lines):", "```text", snippet, "```"] else [])
     ++ [blockersLineOf lastMessage, ""])

/-- `_make_prompt_text`. -/
def make_prompt_text (repoRoot taskId : String) (worktreePath : Option String)
    (baseBranch kickoffRef kickoffText : String) : String :=
  let wt := match worktreePath with
            | some p => p
            | none => repoRoot
  pyJoin '\n'
    ["You are a coding agent executing exactly one task: " ++ taskId ++ ".",
     "Base repo: " ++ repoRoot,
     "Task worktree: " ++ wt,
     "Base branch: " ++ baseBranch,
     "",
     "Hard rules:",
     "- Do not proceed to any other task IDs.",
     "- Do NOT edit feature docs, task tracking, or session logs:",
     "  - docs/project_management/next/**/tasks.json",
     "  - docs/project_management/next/**/session_log.md",
     "- Do NOT create/remove git worktrees; the orchestrator handles that.",
     "- Do NOT update task statuses; the orchestrator handles that.",
     "- Do NOT run `git checkout` / `git pull` or otherwise switch branches; the orchestrator already prepared the worktree on the task branch.",
     "- Work only in the provided worktree (git repo cwd).",
     "- Run the required commands listed under 'Commands (required)' in the kickoff prompt.",
     "- End with a concise report including: files changed, branch/worktree, commits, commands run + pass/fail, and any blockers.",
     "",
     "Kickoff prompt path: " ++ kickoffRef,
     "",
     "Kickoff prompt (verbatim):",
     pyStrip kickoffText,
     ""]

/-! ### The event loop (`main`, lines 376-714), one tick -/

/-- The parsed CLI flags the loop consults, plus `base_branch` (computed once
at startup from `git rev-parse --abbrev-ref HEAD`).  `idPred` models
`re.compile(args.id_regex)`: `none` when no regex was given, otherwise the
pure predicate `id ↦ (id_re.search(id) is not None)`. -/
structure Args where
  maxWorkers : Int := 2
  perWorkstream : Int := 1
  stopOnBlocked : Bool := false
  dryRun : Bool := false
  onlyIds : List String := []
  idPred : Option (String → Bool) := none
  repoRoot : String := "/repo"
  runRoot : String := ".runs"
  baseBranch : String := "main"

/-- External observations of one tick, keyed by task id (or, for
`revParse`/`ffMergeOk`, by branch name).  `revParse` is the raw stdout of
`git rev-parse` (empty on failure); `baseShaFile` is the stripped content of
`<run_dir>/base_sha.txt`; `logLines`/`lastMessage` are file contents
(`none` = absent or unreadable); `now` stands for the wall-clock stamps. -/
structure World where
  sessionLogExists : Bool := false
  doneExists : String → Bool := fun _ => false
  doneLines : String → List String := fun _ => []
  procExited : String → Bool := fun _ => false
  logLines : String → Option (List String) := fun _ => none
  lastMessage : String → Option String := fun _ => none
  revParse : String → String := fun _ => ""
  baseShaFile : String → String := fun _ => ""
  ffMergeOk : String → Bool := fun _ => true
  ffMergeRc : String → Int := fun _ => 1
  kickoffExists : String → Bool := fun _ => false
  kickoffRead : String → String := fun _ => ""
  now : String := "1970-01-01T00:00:00Z"

/-- The orchestrator's in-memory maps at the top of a tick (`running`'s dict
keys in insertion order, and the `task_to_worktree` / `task_base_sha` dicts as
newest-first association lists). -/
structure OrchState where
  running : List String := []
  taskToWorktree : List (String × String) := []
  taskBaseSha : List (String × String) := []

/-- Dict lookup in a newest-first association list. -/
def assocGet (m : List (String × String)) (k : String) : Option String :=
  (m.find? (fun kv => kv.1 = k)).map (fun kv => kv.2)

/-- `t.worktree and t.worktree.strip().upper() != "N/A"`. -/
def isRealWorktree (wt : String) : Bool :=
  !(wt == "") && !(pyUpper (pyStrip wt) == "N/A")

/-- `<repo_root>/<run_root>/<task_id>`. -/
def runDirOf (args : Args) (taskId : String) : String :=
  args.repoRoot ++ "/" ++ args.runRoot ++ "/" ++ taskId

/-- Every externally visible mutation (and print) a tick performs, reified. -/
inductive Effect where
  | print (s : String)
  | mkdirRunDir (taskId : String)
  | unlinkDone (taskId : String)
  | writeQueue (p : List RawTask)
  | sessionAppend (text : String)
  | commitDocs (message : String)
  | ensureWorktree (worktree : String)
  | writeBaseSha (taskId : String) (sha : String)
  | writePrompt (taskId : String) (text : String)
  | spawn (taskId : String)
  | watch
  | writeFailure (taskId : String) (contents : String)
  | removeWorktree (worktree : String)
  | ffMerge (baseBranch integrationBranch : String)
  deriving DecidableEq, Repr

/-- The admission decisions of the non-dry-run spawn loop (lines 467-473):
walk the sorted ready set; skip ids already running, stop at the global cap,
skip active workstreams when the per-workstream cap is positive.  The
decisions read only `running` and `active_streams`, never the payload, so they
are computed here separately from the spawn effects. -/
def admitPass (maxWorkers perWorkstream : Int) :
    List Task → List String → List String → List Task
  | [], _, _ => []
  | t :: ts, running, active =>
    if running.contains t.id then admitPass maxWorkers perWorkstream ts running active
    else if maxWorkers ≤ (running.length : Int) then []
    else if perWorkstream > 0 && active.contains t.workstream_id then
      admitPass maxWorkers perWorkstream ts running active
    else t :: admitPass maxWorkers perWorkstream ts (t.id :: running) (t.workstream_id :: active)

/-- The same loop with the per-workstream gate removed (global cap only). -/
def admitCapOnly (maxWorkers : Int) : List Task → List String → List Task
  | [], _ => []
  | t :: ts, running =>
    if running.contains t.id then admitCapOnly maxWorkers ts running
    else if maxWorkers ≤ (running.length : Int) then []
    else t :: admitCapOnly maxWorkers ts (t.id :: running)

/-- The dry-run planning loop (lines 443-449): cap on `len(planned)`, no
running-id check (the first tick's `running` is empty), same workstream gate. -/
def dryRunPlanAux (maxWorkers perWorkstream : Int) :
    List Task → Int → List String → List Task
  | [], _, _ => []
  | t :: ts, plannedCount, active =>
    if maxWorkers ≤ plannedCount then []
    else if perWorkstream > 0 && active.contains t.workstream_id then
      dryRunPlanAux maxWorkers perWorkstream ts plannedCount active
    else t :: dryRunPlanAux maxWorkers perWorkstream ts (plannedCount + 1) (t.workstream_id :: active)

/-- `planned` of the dry-run branch. -/
def dryRunPlanned (maxWorkers perWorkstream : Int) (runnable : List Task)
    (active : List String) : List Task :=
  dryRunPlanAux maxWorkers perWorkstream runnable 0 active

/-- What the admission loop accumulates besides effects. -/
structure SpawnResult where
  payload : List RawTask
  taskToWorktree : List (String × String)
  taskBaseSha : List (String × String)
  effects : List Effect

/-- The spawn work for each admitted task, in order (lines 475-547): run dir,
stale sentinel unlink, kickoff load, `in_progress` update + docs-start commit,
worktree + base-sha recording, prompt write, spawn. -/
def spawnAll (args : Args) (world : World) :
    List (String × String) → List (String × String) → List RawTask → List Task → SpawnResult
  | ttw, tbs, payload, [] => ⟨payload, ttw, tbs, []⟩
  | ttw, tbs, payload, t :: ts =>
    let e0 := [Effect.mkdirRunDir t.id]
               ++ (if world.doneExists t.id then [Effect.unlinkDone t.id] else [])
    let kickoffText := load_kickoff_text world.kickoffExists world.kickoffRead args.repoRoot t.kickoff_ref
    let payload1 := update_task payload t.id setInProgress
    let wtReal := isRealWorktree t.worktree
    let e1 := (if world.sessionLogExists then
                 [Effect.sessionAppend (sessionStartText world.now (role_label t.type) t.id
                    args.baseBranch t.kickoff_ref (if wtReal then t.worktree else ""))]
               else [])
              ++ [Effect.writeQueue payload1, Effect.commitDocs ("docs: start " ++ t.id)]
    let branch := pathBasename t.worktree
    let sha := pyStrip (world.revParse branch)
    let ttw1 := if wtReal then (t.id, t.worktree) :: ttw else ttw
    let tbs1 := if wtReal then (t.id, sha) :: tbs else tbs
    let e2 := if wtReal then [Effect.ensureWorktree t.worktree, Effect.writeBaseSha t.id sha] else []
    let promptText := make_prompt_text args.repoRoot t.id
        (if wtReal then some (args.repoRoot ++ "/" ++ t.worktree) else none)
        args.baseBranch t.kickoff_ref kickoffText
    let e3 := [Effect.writePrompt t.id promptText, Effect.spawn t.id]
    let rest := spawnAll args world ttw1 tbs1 payload1 ts
    ⟨rest.payload, rest.taskToWorktree, rest.taskBaseSha, e0 ++ e1 ++ e2 ++ e3 ++ rest.effects⟩

/-- What the sentinel/exit scan accumulates. -/
structure ScanResult where
  payload : List RawTask
  finished : List String
  effects : List Effect

/-- The completion scan over `running` (lines 552-581): a task with a DONE
sentinel is finished; a task whose supervisor exited without a sentinel gets a
synthesized `failure.md`, an immediate blocked update, and is ALSO appended to
`finished` (so the finish loop below reclassifies it again). -/
def scanRunning (args : Args) (world : World) :
    List String → List RawTask → ScanResult
  | [], payload => ⟨payload, [], []⟩
  | taskId :: rest, payload =>
    let runDir := runDirOf args taskId
    let logPath := runDir ++ "/worker.log"
    let failurePath := runDir ++ "/failure.md"
    if world.doneExists taskId then
      let r := scanRunning args world rest payload
      ⟨r.payload, taskId :: r.finished, r.effects⟩
    else if world.procExited taskId && !(world.doneExists taskId) then
      let tl := tail_lines (world.logLines taskId) 200
      let failureText := "# Worker exited without DONE\n\nfinished_at: " ++ world.now
          ++ "\n\n## Last 200 log lines\n\n```text\n" ++ tl ++ "```\n"
      let payload1 := update_task payload taskId (setBlocked
          ["Worker exited without writing DONE sentinel."]
          ["Inspect " ++ logPath, "Inspect " ++ failurePath, "Re-run task with revised prompt."])
      let r := scanRunning args world rest payload1
      ⟨r.payload, taskId :: r.finished,
       [Effect.writeFailure taskId failureText, Effect.writeQueue payload1] ++ r.effects⟩
    else
      scanRunning args world rest payload

/-- The classification of one finished task (lines 583-714). -/
inductive FinOutcome where
  | workerFailed (status : String)
  | noCommit (branch : String)
  | ffFailed (branch : String)
  | finished (integration : Bool) (branch : String)
  deriving DecidableEq, Repr

/-- `wt` of the finish loop (lines 604-605): the recorded worktree, falling
back to the queue record, blanked unless it is a real worktree. -/
def wtOf (ttw : List (String × String)) (this : Option Task) (taskId : String) : String :=
  let wt0 := match assocGet ttw taskId with
             | some w => w
             | none => match this with
                       | some t => t.worktree
                       | none => ""
  if isRealWorktree wt0 then wt0 else ""

/-- `base_sha` of the no-commit check (line 636): the in-memory map entry if
truthy, else the recorded `base_sha.txt`. -/
def baseShaOf (tbs : List (String × String)) (world : World) (taskId : String) : String :=
  match assocGet tbs taskId with
  | some s => if s = "" then world.baseShaFile taskId else s
  | none => world.baseShaFile taskId

/-- `status` of the finish loop (lines 593-607): parse the DONE sentinel (an
absent file parses as the empty dict) and normalize its `status` value. -/
def doneStatusOf (world : World) (taskId : String) : String :=
  pyLower (pyStrip ((doneInfoGet
    (if world.doneExists taskId then world.doneLines taskId else []) "status").getD ""))

/-- `this` of the finish loop (line 602): the first loaded task with this id. -/
def thisTaskOf (payload : List RawTask) (taskId : String) : Option Task :=
  (load_tasks payload).find? (fun t => t.id = taskId)

/-- `this.worktree if this else ""`. -/
def thisWorktreeOf (payload : List RawTask) (taskId : String) : String :=
  match thisTaskOf payload taskId with
  | some t => t.worktree
  | none => ""

/-- `Path(wt or this.worktree).name` (lines 635 and 670). -/
def branchOf (ttw : List (String × String)) (payload : List RawTask) (taskId : String) :
    String :=
  pathBasename (if wtOf ttw (thisTaskOf payload taskId) taskId ≠ ""
    then wtOf ttw (thisTaskOf payload taskId) taskId
    else thisWorktreeOf payload taskId)

/-- The stripped `git rev-parse <branch>` output (line 637). -/
def branchShaOf (world : World) (ttw : List (String × String)) (payload : List RawTask)
    (taskId : String) : String :=
  pyStrip (world.revParse (branchOf ttw payload taskId))

/-- The finish loop's processing of one finished task id: parse the sentinel,
then classify as worker-failed / no-commit / ff-merge-failed / completed, with
the corresponding queue update, session END entry, docs commit, and (only on
the completed path) worktree removal. -/
def processFinished (args : Args) (world : World)
    (ttw tbs : List (String × String)) (payload : List RawTask) (taskId : String) :
    List RawTask × List Effect :=
  let runDir := runDirOf args taskId
  let donePath := runDir ++ "/" ++ taskId ++ ".done"
  let logPath := runDir ++ "/worker.log"
  let lastMessagePath := runDir ++ "/last_message.md"
  let this := thisTaskOf payload taskId
  let role := role_label (match this with
                          | some t => t.type
                          | none => "")
  let wt := wtOf ttw this taskId
  let status := doneStatusOf world taskId
  let branch := branchOf ttw payload taskId
  let baseSha := baseShaOf tbs world taskId
  let branchSha := branchShaOf world ttw payload taskId
  let isIntegration := (match this with
                        | some t => pyLower (pyStrip t.type) == "integration"
                        | none => false) && !(wt == "")
  let outcome : FinOutcome :=
    if status ≠ "success" then .workerFailed status
    else if this.isSome && !(wt == "") && (branchSha == "" || branchSha == baseSha) then
      .noCommit branch
    else if isIntegration && !(world.ffMergeOk branch) then .ffFailed branch
    else .finished isIntegration branch
  let endEntry := fun (extra : List String) =>
    if world.sessionLogExists then
      [Effect.sessionAppend (sessionEndText world.now role taskId wt lastMessagePath extra
         (world.lastMessage taskId))]
    else []
  match outcome with
  | .workerFailed st =>
    let stShown := if st = "" then "unknown" else st
    let p := update_task payload taskId (setBlocked
        ["Worker status=" ++ stShown ++ " (see .runs)."]
        ["Inspect " ++ logPath, "Inspect " ++ donePath, "Adjust prompt and rerun."])
    (p, [Effect.writeQueue p]
        ++ endEntry ["- Orchestrator: marked task blocked (worker status=" ++ stShown ++ ")"]
        ++ [Effect.commitDocs ("docs: finish " ++ taskId ++ " (blocked)")])
  | .noCommit br =>
    let p := update_task payload taskId (setBlocked
        ["No commit produced on branch '" ++ br ++ "' (likely commit failed)."]
        ["Inspect " ++ runDir ++ "/last_message.md", "Inspect " ++ runDir ++ "/worker.log",
         "Re-run the task with a less-restrictive codex sandbox."])
    (p, [Effect.writeQueue p]
        ++ endEntry ["- Orchestrator: marked task blocked (no commit produced)"]
        ++ [Effect.commitDocs ("docs: finish " ++ taskId ++ " (blocked)")])
  | .ffFailed br =>
    let p := update_task payload taskId (setBlocked
        ["Failed ff-merge " ++ br ++ " into " ++ args.baseBranch ++ ": rc="
           ++ toString (world.ffMergeRc br)]
        ["Inspect git history", "Resolve merge/rebase, then rerun integration task."])
    (p, [Effect.ffMerge args.baseBranch br, Effect.writeQueue p]
        ++ endEntry ["- Orchestrator: marked task blocked (ff-merge failed: `" ++ br
             ++ "` → `" ++ args.baseBranch ++ "`)"]
        ++ [Effect.commitDocs ("docs: finish " ++ taskId ++ " (blocked)")])
  | .finished integ br =>
    let extra := if integ then
        ["- Orchestrator: fast-forward merged `" ++ br ++ "` → `" ++ args.baseBranch ++ "`"]
      else []
    let p := update_task payload taskId setCompleted
    (p, (if integ then [Effect.ffMerge args.baseBranch br] else [])
        ++ endEntry extra
        ++ [Effect.writeQueue p, Effect.commitDocs ("docs: finish " ++ taskId)]
        ++ (if wt ≠ "" then [Effect.removeWorktree wt] else []))

/-- The finish loop over all finished ids, threading the payload. -/
def finishFold (args : Args) (world : World) (ttw tbs : List (String × String)) :
    List String → List RawTask → List RawTask × List Effect
  | [], payload => (payload, [])
  | taskId :: rest, payload =>
    let r1 := processFinished args world ttw tbs payload taskId
    let r2 := finishFold args world ttw tbs rest r1.1
    (r2.1, r1.2 ++ r2.2)

/-- What one tick returns: the queue payload on disk afterwards, the effect
trace, the loop's exit code (`none` = the loop continues), and the running
map's keys afterwards. -/
structure TickResult where
  payload : List RawTask
  effects : List Effect
  exitCode : Option Int
  running : List String

/-- `blocked` of the stop-on-blocked check (line 431): only the explicit
`--only-task-ids` allowlist restricts it; the id regex is NOT applied. -/
def stopBlockedOf (payload : List RawTask) (onlyIds : List String) : List Task :=
  (load_tasks payload).filter
    (fun t => t.status == "blocked" && (onlyIds.isEmpty || onlyIds.contains t.id))

/-- The scope filter applied to `tasks` (lines 423-428). -/
def scopeKeep (onlyIds : List String) (idPred : Option (String → Bool)) (tid : String) : Bool :=
  (onlyIds.isEmpty || onlyIds.contains tid)
    && (match idPred with
        | none => true
        | some p => p tid)

/-- The scope filter composed with loading: the `tasks` list of a tick. -/
def scopedTasks (payload : List RawTask) (onlyIds : List String)
    (idPred : Option (String → Bool)) : List Task :=
  (load_tasks payload).filter (fun t => scopeKeep onlyIds idPred t.id)

/-- The dry-run branch (lines 440-458): a pure scheduling preview. -/
def dryTick (args : Args) (_world : World) (st : OrchState) (payload0 : List RawTask) :
    TickResult :=
  let tasksAll := load_tasks payload0
  let tasks := scopedTasks payload0 args.onlyIds args.idPred
  let done := completedIds tasksAll
  let runnable := runnable_tasks tasks done
  let active := active_workstreams payload0
  let planned := dryRunPlanned args.maxWorkers args.perWorkstream runnable active
  if planned = [] then
    ⟨payload0, [Effect.print "DRY RUN: no runnable tasks (within scope)."], some 0, st.running⟩
  else
    ⟨payload0,
     planned.map (fun t => Effect.print ("DRY RUN: would spawn " ++ t.id ++ " ("
       ++ t.workstream_id ++ ") in "
       ++ (if isRealWorktree t.worktree then args.repoRoot ++ "/" ++ t.worktree else args.repoRoot))),
     some 0, st.running⟩

/-- The non-dry-run remainder of a tick (lines 460-714). -/
def runTick (args : Args) (world : World) (st : OrchState) (payload0 : List RawTask) :
    TickResult :=
  let tasksAll := load_tasks payload0
  let tasks := scopedTasks payload0 args.onlyIds args.idPred
  let done := completedIds tasksAll
  let runnable := runnable_tasks tasks done
  if runnable = [] ∧ st.running = [] then
    ⟨payload0, [Effect.print "DONE: no runnable tasks and no running workers (within scope)."],
     some 0, st.running⟩
  else
    let active0 := active_workstreams payload0
    let admitted := admitPass args.maxWorkers args.perWorkstream runnable st.running active0
    let s := spawnAll args world st.taskToWorktree st.taskBaseSha payload0 admitted
    let running1 := st.running ++ admitted.map (fun t => t.id)
    let watchEffs := if admitted.isEmpty && !running1.isEmpty then [Effect.watch] else []
    let scan := scanRunning args world running1 s.payload
    let fin := finishFold args world s.taskToWorktree s.taskBaseSha scan.finished scan.payload
    ⟨fin.1, s.effects ++ watchEffs ++ scan.effects ++ fin.2, none,
     running1.filter (fun tid => !(scan.finished.contains tid))⟩

/-- One full tick of `main`'s `while True` loop: stop-on-blocked check, then
the dry-run preview or the real admission / scan / finish pipeline. -/
def tick (args : Args) (world : World) (st : OrchState) (payload0 : List RawTask) :
    TickResult :=
  let blocked := stopBlockedOf payload0 args.onlyIds
  if blocked ≠ [] ∧ args.stopOnBlocked then
    ⟨payload0, [Effect.print ("STOP: " ++ toString blocked.length ++ " blocked task(s).")],
     some 1, st.running⟩
  else if args.dryRun then dryTick args world st payload0
  else runTick args world st payload0

/-! ### Specification-level predicates -/

/-- The claimed ready-set ordering: ascending `order`, ties broken by the
insertion index. -/
def lexLe (a b : Task) : Prop :=
  a.order < b.order ∨ (a.order = b.order ∧ a.index ≤ b.index)

instance : DecidableRel lexLe := fun a b => by
  unfold lexLe; infer_instance

/-- Nonempty stripped ids are pairwise distinct (the data model's `id` is
"unique within the queue"). -/
def UniqueIds (p : List RawTask) : Prop :=
  ∀ i j : Fin p.length,
    pyStrip (p.get i).id ≠ "" → pyStrip (p.get i).id = pyStrip (p.get j).id → i = j

/-- The sole-writer invariant the spec asserts for the running map: every
running id names a queue record the orchestrator previously flipped to
`in_progress`. -/
def RunningInProgress (p : List RawTask) (running : List String) : Prop :=
  ∀ tid ∈ running, tid ≠ "" ∧
    ∃ i : Fin p.length,
      pyStrip (p.get i).id = tid ∧ normalize_status (p.get i).status = "in_progress"

/-- Every record of `p0` whose normalized status is `completed` survives, at
its position and byte for byte, into `p`. -/
def CompletedFrozen (p0 p : List RawTask) : Prop :=
  ∀ (i : Nat) (r0 : RawTask), p0[i]? = some r0 →
    normalize_status r0.status = "completed" → p[i]? = some r0

/-- No completed record of `p0` carries the stripped id `tid`. -/
def AvoidsCompleted (p0 : List RawTask) (tid : String) : Prop :=
  ∀ (i : Nat) (r0 : RawTask), p0[i]? = some r0 →
    normalize_status r0.status = "completed" → pyStrip r0.id ≠ tid

/-- `p` has the same length and the same record ids (positionally) as `p0`. -/
def IdsStable (p0 p : List RawTask) : Prop :=
  p.length = p0.length ∧
    ∀ i : Nat, (p[i]?).map (fun r => r.id) = (p0[i]?).map (fun r => r.id)

/-- The update-fold invariant for one tick. -/
def TickInv (p0 p : List RawTask) : Prop :=
  IdsStable p0 p ∧ CompletedFrozen p0 p

/-- `tid` names some non-completed record of `p0`. -/
def GoodTid (p0 : List RawTask) (tid : String) : Prop :=
  tid ≠ "" ∧ ∃ (i : Nat) (r : RawTask), p0[i]? = some r ∧ pyStrip r.id = tid ∧
    normalize_status r.status ≠ "completed"

instance (p : List RawTask) : Decidable (UniqueIds p) := by
  unfold UniqueIds; infer_instance

instance (p : List RawTask) (running : List String) :
    Decidable (RunningInProgress p running) := by
  unfold RunningInProgress; infer_instance

/-! ### Concrete scenarios used by the closed evaluation theorems -/

/-- C1 scenario: one in-progress task whose supervisor exited with no DONE
sentinel and a three-line worker log. -/
def exC1World : World :=
  { procExited := fun _ => true
    logLines := fun _ => some ["log line 1", "log line 2", "log line 3"] }

def exC1Payload : List RawTask := [{ id := "A", status := "in_progress" }]

def exC1St : OrchState := { running := ["A"] }

/-- The transient queue record the sentinel scan writes for C1 before the
finish loop overwrites its blockers. -/
def exC1Transient : RawTask :=
  { id := "A", status := "blocked",
    blockers := ["Worker exited without writing DONE sentinel."],
    unblock_steps := ["Inspect /repo/.runs/A/worker.log", "Inspect /repo/.runs/A/failure.md",
                      "Re-run task with revised prompt."] }

/-- C2 scenario: DONE success, a recorded worktree `work/A`, and a branch tip
equal to the recorded base SHA. -/
def exC2World : World :=
  { doneExists := fun _ => true
    doneLines := fun _ => ["status=success"]
    revParse := fun _ => "sha0"
    baseShaFile := fun _ => "sha0" }

def exC2Payload : List RawTask :=
  [{ id := "A", status := "in_progress", worktree := "work/A", type := "code" }]

def exC2Ttw : List (String × String) := [("A", "work/A")]

def exC2Tbs : List (String × String) := [("A", "sha0")]

/-- C3 counterexample scenario: dry run with `--stop-on-blocked` and a blocked
in-scope task. -/
def exC3Args : Args := { dryRun := true, stopOnBlocked := true }

def exC3Payload : List RawTask := [{ id := "B", status := "blocked" }]

/-- C3 witness scenario: plain dry run over one pending task. -/
def exC3wArgs : Args := { dryRun := true }

def exC3wPayload : List RawTask := [{ id := "P", status := "pending" }]

/-- C4 witness scenario: two pending tasks tied on `order` behind a completed
dependency. -/
def exC4Payload : List RawTask :=
  [{ id := "A", status := "done" },
   { id := "B", status := "pending", depends_on := ["A"], order := some 5 },
   { id := "C", status := "pending", order := some 5 }]

/-- The two loaded ready tasks of the C4 witness scenario. -/
def exC4TaskB : Task :=
  { id := "B", index := 1, order := 5, status := "pending", depends_on := ["A"],
    kickoff_ref := "", type := "", worktree := "", workstream_id := "WS-DEFAULT" }

def exC4TaskC : Task :=
  { id := "C", index := 2, order := 5, status := "pending", depends_on := [],
    kickoff_ref := "", type := "", worktree := "", workstream_id := "WS-DEFAULT" }

/-- C5 witness scenario: two ready tasks in one workstream. -/
def exC5Runnable : List Task :=
  [{ id := "A", index := 0, order := 10, status := "pending", depends_on := [],
     kickoff_ref := "", type := "code", worktree := "", workstream_id := "WS-CODE" },
   { id := "B", index := 1, order := 20, status := "pending", depends_on := [],
     kickoff_ref := "", type := "code", worktree := "", workstream_id := "WS-CODE" }]

/-- C6 counterexample scenario: a blocked task excluded by the id regex (the
predicate that matches nothing) but not by `--only-task-ids`. -/
def exC6Args : Args := { stopOnBlocked := true, idPred := some (fun _ => false) }

def exC6Payload : List RawTask := [{ id := "B", status := "blocked" }]

/-- C6 witness scenario: a blocked task inside the explicit allowlist. -/
def exC6wArgs : Args := { stopOnBlocked := true, onlyIds := ["B"] }

def exC6wPayload : List RawTask := [{ id := "B", status := "blocked" }]

/-- C7 witness scenario: a completed record ahead of one pending and one
running (in-progress) task. -/
def exC7Payload : List RawTask :=
  [{ id := "C", status := "completed" },
   { id := "A", status := "pending" },
   { id := "B", status := "in_progress" }]

def exC7CompletedRec : RawTask := { id := "C", status := "completed" }

def exC7St : OrchState := { running := ["B"] }

/-- C10 scenario: a whitespace-only id ahead of a completed task. -/
def exC10Payload : List RawTask :=
  [{ id := "  ", status := "pending" }, { id := "A", status := "done" }]

def exC10Blank : RawTask := { id := "  ", status := "pending" }

/-! ## Helper lemmas -/

theorem update_task_length (p : List RawTask) (tid : String) (f : RawTask → RawTask) :
    (update_task p tid f).length = p.length := by
  induction p with
  | nil => rfl
  | cons t ts ih => by_cases h : pyStrip t.id = tid <;> simp [update_task, h, ih]

theorem update_task_getElem?_cases (p : List RawTask) (tid : String) (f : RawTask → RawTask)
    (i : Nat) :
    (update_task p tid f)[i]? = p[i]? ∨
      ∃ r, p[i]? = some r ∧ pyStrip r.id = tid ∧ (update_task p tid f)[i]? = some (f r) := by
  induction p generalizing i with
  | nil => left; simp [update_task]
  | cons t ts ih =>
    by_cases h : pyStrip t.id = tid
    · cases i with
      | zero => right; exact ⟨t, by simp, h, by simp [update_task, h]⟩
      | succ n => left; simp [update_task, h]
    · cases i with
      | zero => left; simp [update_task, h]
      | succ n =>
        rcases ih n with h1 | ⟨r, h1, h2, h3⟩
        · left; simpa [update_task, h] using h1
        · right
          exact ⟨r, by simpa using h1, h2, by simpa [update_task, h] using h3⟩

theorem update_task_getElem?_of_ne (p : List RawTask) (tid : String) (f : RawTask → RawTask)
    (i : Nat) (r : RawTask) (hr : p[i]? = some r) (hne : pyStrip r.id ≠ tid) :
    (update_task p tid f)[i]? = some r := by
  rcases update_task_getElem?_cases p tid f i with h | ⟨r2, h1, h2, h3⟩
  · rw [h, hr]
  · rw [hr] at h1
    cases Option.some.inj h1
    exact absurd h2 hne

theorem update_task_mem_first (p : List RawTask) (tid : String) (f : RawTask → RawTask)
    (h : ∃ r ∈ p, pyStrip r.id = tid) :
    ∃ r ∈ p, pyStrip r.id = tid ∧ f r ∈ update_task p tid f := by
  induction p with
  | nil => simp at h
  | cons t ts ih =>
    by_cases ht : pyStrip t.id = tid
    · exact ⟨t, List.mem_cons_self t ts, ht, by simp [update_task, ht]⟩
    · obtain ⟨r, hr, hrt⟩ := h
      rcases List.mem_cons.mp hr with rfl | hr2
      · exact absurd hrt ht
      · obtain ⟨r2, hr2m, hrt2, hmem⟩ := ih ⟨r, hr2, hrt⟩
        refine ⟨r2, List.mem_cons_of_mem _ hr2m, hrt2, ?_⟩
        simp [update_task, ht]
        exact Or.inr hmem

theorem normalize_status_default (s : String) :
    normalize_status (if s = "" then "pending" else s) = normalize_status s := by
  by_cases h : s = ""
  · subst h; decide
  · simp [h]

/-- Every loaded task corresponds to a raw record: same stripped id, a
nonempty id, the normalized status, and the enumeration index. -/
theorem loadTasksFrom_mem {n : Nat} {p : List RawTask} {t : Task}
    (h : t ∈ loadTasksFrom n p) :
    ∃ (k : Nat) (r : RawTask), p[k]? = some r ∧ t.index = n + k ∧ pyStrip r.id = t.id ∧
      t.id ≠ "" ∧ t.status = normalize_status r.status := by
  induction p generalizing n with
  | nil => simp [loadTasksFrom] at h
  | cons r0 rs ih =>
    by_cases hb : pyStrip r0.id = ""
    · rw [loadTasksFrom, if_pos hb] at h
      obtain ⟨k, r, h1, h2, h3, h4, h5⟩ := ih h
      exact ⟨k + 1, r, by simpa using h1, by omega, h3, h4, h5⟩
    · rw [loadTasksFrom, if_neg hb] at h
      rcases List.mem_cons.mp h with rfl | h2
      · refine ⟨0, r0, by simp, by simp, rfl, hb, ?_⟩
        simpa using normalize_status_default r0.status
      · obtain ⟨k, r, h1, h2, h3, h4, h5⟩ := ih h2
        exact ⟨k + 1, r, by simpa using h1, by omega, h3, h4, h5⟩

theorem load_tasks_mem {p : List RawTask} {t : Task} (h : t ∈ load_tasks p) :
    ∃ (k : Nat) (r : RawTask), p[k]? = some r ∧ t.index = k ∧ pyStrip r.id = t.id ∧
      t.id ≠ "" ∧ t.status = normalize_status r.status := by
  obtain ⟨k, r, h1, h2, h3, h4, h5⟩ := loadTasksFrom_mem h
  exact ⟨k, r, h1, by omega, h3, h4, h5⟩

theorem loadTasksFrom_index_ge {n : Nat} {p : List RawTask} {t : Task}
    (h : t ∈ loadTasksFrom n p) : n ≤ t.index := by
  obtain ⟨k, r, -, h2, -⟩ := loadTasksFrom_mem h
  omega

theorem loadTasksFrom_pairwise (n : Nat) (p : List RawTask) :
    List.Pairwise (fun a b => a.index < b.index) (loadTasksFrom n p) := by
  induction p generalizing n with
  | nil => simp [loadTasksFrom]
  | cons r0 rs ih =>
    by_cases hb : pyStrip r0.id = ""
    · rw [loadTasksFrom, if_pos hb]; exact ih (n + 1)
    · rw [loadTasksFrom, if_neg hb]
      refine List.Pairwise.cons ?_ (ih (n + 1))
      intro b hbmem
      have := loadTasksFrom_index_ge hbmem
      simp only []
      omega

theorem load_tasks_pairwise (p : List RawTask) :
    List.Pairwise (fun a b => a.index < b.index) (load_tasks p) :=
  loadTasksFrom_pairwise 0 p

/-! ## Claim theorems -/

/-- C1: code evaluation at the failing input.  A running task whose
supervisor exited with no DONE sentinel does get a synthesized `failure.md`
holding the last 200 worker-log lines, and a transient queue write carries the
claimed blocker — but the same task is then re-processed by the finish loop,
which finds no sentinel, reads `status=""`, and overwrites the blockers with
`"Worker status=unknown (see .runs)."` in the saved queue.  The claim's final
blocker text therefore does not survive the tick. -/
theorem no_sentinel_blocker_overwritten :
    (tick { } exC1World exC1St exC1Payload).payload.map (fun t => (t.status, t.blockers)) =
      [("blocked", ["Worker status=unknown (see .runs)."])] ∧
    Effect.writeFailure "A"
        ("# Worker exited without DONE\n\nfinished_at: 1970-01-01T00:00:00Z\n\n## Last 200 log lines\n\n```text\nlog line 1\nlog line 2\nlog line 3\n```\n")
      ∈ (tick { } exC1World exC1St exC1Payload).effects ∧
    Effect.writeQueue [exC1Transient] ∈ (tick { } exC1World exC1St exC1Payload).effects := by
  decide

/-- C9: code evaluation at the failing input.  The raw-string regex demands
literal backslashes (`-\`, `:\`), so the ordinary markdown bullet
`- **Blockers**: stuck on X` never matches and the END entry falls back to
`- Blockers: none`.  The last conjunct shows what the pattern does accept: a
line with literal backslashes, whose leading `s` is then eaten by the
trailing `s*` of the pattern. -/
theorem blocker_regex_requires_backslashes :
    matchBlockerLine "- **Blockers**: stuck on X".data = none ∧
    blockersLineOf (some "- **Blockers**: stuck on X") = "- Blockers: none" ∧
    (pySplitlines (sessionEndText "ts" "Code" "T1" "" "/repo/.runs/T1/last_message.md" []
        (some "- **Blockers**: stuck on X"))).getLastD "" = "- Blockers: none" ∧
    blockersLineOf (some "-\\Blockers:\\stuck on X") = "- Blockers: tuck on X" := by
  decide

/-- C8 counterexample: `notes.md` is resolved as a path although it does not
contain `/`, so the claim's three conditions are not jointly necessary: the
source combines them with OR (over the two suffix tests), not AND. -/
theorem kickoff_path_conjunction_fails :
    looks_like_path "notes.md" = true ∧ containsChar "notes.md" '/' = false ∧
    load_kickoff_text (fun _ => false) (fun _ => "") "/repo" "notes.md" = "notes.md" := by
  decide

/-- C8 amended: a kickoff reference is resolved as a repo-relative path
exactly when (it contains `/` OR ends with `.md` OR ends with `.txt`) and
does not begin with `#`, all on the stripped reference; a path-like reference
whose file is missing falls back to the reference text itself, and one whose
file exists loads the file. -/
theorem kickoff_reference_resolution (exists? : String → Bool) (read : String → String)
    (repoRoot ref : String) :
    (looks_like_path ref =
      ((containsChar (pyStrip ref) '/' || pyEndsWith (pyStrip ref) ".md"
          || pyEndsWith (pyStrip ref) ".txt")
        && !(pyStartsWith (pyStrip ref) "#"))) ∧
    (pyStrip ref ≠ "" → looks_like_path (pyStrip ref) = true →
      (exists? (repoRoot ++ "/" ++ pyStrip ref) = false →
        load_kickoff_text exists? read repoRoot ref = pyStrip ref) ∧
      (exists? (repoRoot ++ "/" ++ pyStrip ref) = true →
        load_kickoff_text exists? read repoRoot ref = read (repoRoot ++ "/" ++ pyStrip ref))) := by
  refine ⟨rfl, ?_⟩
  intro h1 h2
  constructor
  · intro hmiss
    simp [load_kickoff_text, h1, h2, hmiss]
  · intro hhit
    simp [load_kickoff_text, h1, h2, hhit]

/-- C8 witness: concrete instantiation of the amended resolution theorem. -/
theorem kickoff_reference_resolution_witness :
    load_kickoff_text (fun _ => false) (fun _ => "body") "/repo" "docs/kickoff.md"
      = "docs/kickoff.md" := by
  have h := ((kickoff_reference_resolution (fun _ => false) (fun _ => "body")
      "/repo" "docs/kickoff.md").2 (by decide) (by decide)).1 (by decide)
  rw [h]; decide

/-- C10: a record whose id strips to empty is silently excluded by the
loader: no loaded task carries its index (so it is never scheduled), the
empty id is never in the completed set used for dependency resolution, and
any status update addressed to a real (nonempty) id leaves the record
untouched at its position. -/
theorem blank_id_records_excluded (p : List RawTask) (i : Nat) (r : RawTask)
    (hi : p[i]? = some r) (hblank : pyStrip r.id = "") :
    (∀ t ∈ load_tasks p, t.id ≠ "" ∧ t.index ≠ i) ∧
    "" ∉ completedIds (load_tasks p) ∧
    (∀ (tid : String) (f : RawTask → RawTask), tid ≠ "" →
      (update_task p tid f)[i]? = some r) := by
  refine ⟨?_, ?_, ?_⟩
  · intro t ht
    obtain ⟨k, rk, h1, h2, h3, h4, -⟩ := load_tasks_mem ht
    refine ⟨h4, ?_⟩
    intro hik
    rw [hik] at h2
    subst h2
    rw [hi] at h1
    cases Option.some.inj h1
    exact h4 (h3 ▸ hblank)
  · intro hmem
    unfold completedIds at hmem
    obtain ⟨t, htf, hid⟩ := List.mem_map.mp hmem
    obtain ⟨-, -, -, -, -, h4, -⟩ := load_tasks_mem (List.mem_filter.mp htf).1
    exact h4 hid
  · intro tid f htid
    exact update_task_getElem?_of_ne p tid f i r hi (fun hh => htid (hblank ▸ hh.symm))

theorem dryTick_pure (args : Args) (world : World) (st : OrchState) (p : List RawTask) :
    (∀ e ∈ (dryTick args world st p).effects, ∃ s, e = Effect.print s) ∧
    (dryTick args world st p).payload = p ∧
    (dryTick args world st p).exitCode = some 0 := by
  simp only [dryTick]
  split
  · refine ⟨?_, rfl, rfl⟩
    intro e he
    rcases List.mem_singleton.mp he with rfl
    exact ⟨_, rfl⟩
  · refine ⟨?_, rfl, rfl⟩
    intro e he
    rcases List.mem_map.mp he with ⟨t, -, rfl⟩
    exact ⟨_, rfl⟩

theorem runTick_exitCode (args : Args) (world : World) (st : OrchState) (p : List RawTask) :
    (runTick args world st p).exitCode = some 0 ∨ (runTick args world st p).exitCode = none := by
  simp only [runTick]
  split
  · left; rfl
  · right; rfl

/-- C3 counterexample: with `--dry-run --stop-on-blocked` and a blocked
in-scope task, the run prints a STOP message and returns exit code 1, not 0 —
the stop-on-blocked check precedes the dry-run branch. -/
theorem dry_run_exit_cex :
    (tick exC3Args { } { } exC3Payload).exitCode = some 1 ∧
    Effect.print "STOP: 1 blocked task(s)." ∈ (tick exC3Args { } { } exC3Payload).effects := by
  decide

/-- C3 amended: a `--dry-run` invocation performs no mutation — every effect
of the tick is a print and the queue payload is returned unchanged — and
returns 0, except that when `--stop-on-blocked` is set and a task passing the
explicit id allowlist is blocked it returns 1 (still without mutating). -/
theorem dry_run_is_pure (args : Args) (world : World) (st : OrchState)
    (payload0 : List RawTask) (hdry : args.dryRun = true) :
    (∀ e ∈ (tick args world st payload0).effects, ∃ s, e = Effect.print s) ∧
    (tick args world st payload0).payload = payload0 ∧
    (tick args world st payload0).exitCode =
      some (if stopBlockedOf payload0 args.onlyIds ≠ [] ∧ args.stopOnBlocked then 1 else 0) := by
  have hd := dryTick_pure args world st payload0
  unfold tick
  by_cases hstop : stopBlockedOf payload0 args.onlyIds ≠ [] ∧ args.stopOnBlocked
  · rw [if_pos hstop]
    refine ⟨?_, rfl, ?_⟩
    · intro e he
      rcases List.mem_singleton.mp he with rfl
      exact ⟨_, rfl⟩
    · rw [if_pos hstop]
  · rw [if_neg hstop, hdry, if_pos rfl]
    exact ⟨hd.1, hd.2.1, by rw [hd.2.2, if_neg hstop]⟩

/-- C3 witness: a plain dry run over one pending task leaves the payload
untouched and exits 0. -/
theorem dry_run_is_pure_witness :
    (tick exC3wArgs { } { } exC3wPayload).payload = exC3wPayload ∧
    (tick exC3wArgs { } { } exC3wPayload).exitCode = some 0 := by
  have h := dry_run_is_pure exC3wArgs { } { } exC3wPayload rfl
  refine ⟨h.2.1, ?_⟩
  rw [h.2.2]
  decide

theorem stopBlockedOf_ne_nil_iff (payload : List RawTask) (onlyIds : List String) :
    stopBlockedOf payload onlyIds ≠ [] ↔
      ∃ t ∈ load_tasks payload, t.status = "blocked" ∧
        (onlyIds = [] ∨ t.id ∈ onlyIds) := by
  constructor
  · intro h
    obtain ⟨t, ht⟩ := List.exists_mem_of_ne_nil _ h
    have hm := List.mem_filter.mp ht
    refine ⟨t, hm.1, ?_⟩
    have hc := hm.2
    simp only [Bool.and_eq_true, beq_iff_eq, Bool.or_eq_true, List.isEmpty_iff] at hc
    refine ⟨hc.1, ?_⟩
    rcases hc.2 with h1 | h1
    · exact Or.inl h1
    · exact Or.inr (by simpa using h1)
  · rintro ⟨t, htm, hts, hscope⟩
    intro hnil
    have : t ∈ stopBlockedOf payload onlyIds := by
      refine List.mem_filter.mpr ⟨htm, ?_⟩
      simp only [Bool.and_eq_true, beq_iff_eq, Bool.or_eq_true, List.isEmpty_iff]
      refine ⟨hts, ?_⟩
      rcases hscope with h1 | h1
      · exact Or.inl h1
      · exact Or.inr (by simpa using h1)
    rw [hnil] at this
    simp at this

/-- C6 counterexample: a blocked task that the id-regex scope excludes (here
the predicate matching nothing) still trips the stop — the blocked check
applies only the explicit id allowlist — so the run exits 1 while the claim's
filtered scope is empty. -/
theorem stop_on_blocked_ignores_regex_cex :
    (tick exC6Args { } { } exC6Payload).exitCode = some 1 ∧
    ((load_tasks exC6Payload).filter
        (fun t => scopeKeep exC6Args.onlyIds exC6Args.idPred t.id)) = [] := by
  decide

/-- C6 amended: with `--stop-on-blocked` set, the loop exits with code 1 at
the top of a tick if and only if some task passing the explicit id allowlist
(the regex allowlist is NOT applied to this check) has status blocked. -/
theorem stop_on_blocked_only_ids_scope (args : Args) (world : World) (st : OrchState)
    (payload : List RawTask) (hstop : args.stopOnBlocked = true) :
    (tick args world st payload).exitCode = some 1 ↔
      ∃ t ∈ load_tasks payload, t.status = "blocked" ∧
        (args.onlyIds = [] ∨ t.id ∈ args.onlyIds) := by
  unfold tick
  by_cases hb : stopBlockedOf payload args.onlyIds ≠ [] ∧ args.stopOnBlocked
  · rw [if_pos hb]
    constructor
    · intro _
      exact (stopBlockedOf_ne_nil_iff payload args.onlyIds).mp hb.1
    · intro _
      rfl
  · rw [if_neg hb]
    have hbe : stopBlockedOf payload args.onlyIds = [] := by
      by_contra hne
      exact hb ⟨hne, hstop⟩
    constructor
    · intro hex
      exfalso
      by_cases hd : args.dryRun = true
      · rw [if_pos hd] at hex
        rw [(dryTick_pure args world st payload).2.2] at hex
        simp at hex
      · rw [if_neg hd] at hex
        rcases runTick_exitCode args world st payload with h0 | h0 <;> rw [h0] at hex <;>
          simp at hex
    · intro hex
      exact absurd hbe ((stopBlockedOf_ne_nil_iff payload args.onlyIds).mpr hex)

/-- C6 witness: a blocked task inside the explicit allowlist makes the
stop-configured tick exit 1. -/
theorem stop_on_blocked_witness :
    (tick exC6wArgs { } { } exC6wPayload).exitCode = some 1 :=
  (stop_on_blocked_only_ids_scope exC6wArgs { } { } exC6wPayload rfl).mpr (by decide)

/-- C10 witness: the whitespace-id record of the concrete payload is ignored
by loading and by an update addressed to the real task `A`. -/
theorem blank_id_records_excluded_witness :
    "" ∉ completedIds (load_tasks exC10Payload) ∧
    (update_task exC10Payload "A" setCompleted)[0]? = some exC10Blank := by
  have h := blank_id_records_excluded exC10Payload 0 exC10Blank (by decide) (by decide)
  exact ⟨h.2.1, h.2.2 "A" setCompleted (by decide)⟩

theorem orderedInsert_sorted_lex (a : Task) (l : List Task)
    (hs : List.Sorted lexLe l) (hidx : ∀ b ∈ l, a.index < b.index) :
    List.Sorted lexLe (l.orderedInsert (fun x y => x.order ≤ y.order) a) := by
  induction l with
  | nil => simp [List.orderedInsert, List.sorted_singleton]
  | cons b bs ih =>
    rw [List.orderedInsert]
    by_cases hab : a.order ≤ b.order
    · rw [if_pos hab]
      rw [List.sorted_cons] at hs ⊢
      refine ⟨?_, List.sorted_cons.mpr hs⟩
      intro c hc
      have hcord : a.order ≤ c.order := by
        rcases List.mem_cons.mp hc with rfl | hc2
        · exact hab
        · have hbc := hs.1 c hc2
          rcases hbc with h | ⟨h, -⟩
          · exact le_trans hab (le_of_lt h)
          · exact le_trans hab (le_of_eq h)
      rcases lt_or_eq_of_le hcord with h | h
      · exact Or.inl h
      · exact Or.inr ⟨h, le_of_lt (hidx c (by
          rcases List.mem_cons.mp hc with rfl | hc2
          · exact List.mem_cons_self _ _
          · exact List.mem_cons_of_mem _ hc2))⟩
    · rw [if_neg hab]
      rw [List.sorted_cons] at hs ⊢
      refine ⟨?_, ih hs.2 (fun c hc => hidx c (List.mem_cons_of_mem _ hc))⟩
      intro c hc
      rcases (List.mem_orderedInsert _).mp hc with rfl | hc2
      · exact Or.inl (lt_of_not_le hab)
      · exact hs.1 c hc2

theorem insertionSort_sorted_lex (l : List Task)
    (hp : List.Pairwise (fun a b => a.index < b.index) l) :
    List.Sorted lexLe (l.insertionSort (fun x y => x.order ≤ y.order)) := by
  induction l with
  | nil => simp [List.insertionSort]
  | cons a as ih =>
    rw [List.insertionSort]
    have hpc := List.pairwise_cons.mp hp
    apply orderedInsert_sorted_lex
    · exact ih hpc.2
    · intro b hb
      exact hpc.1 b ((List.perm_insertionSort _ as).subset hb)

theorem scopedTasks_pairwise (payload : List RawTask) (onlyIds : List String)
    (idPred : Option (String → Bool)) :
    List.Pairwise (fun a b => a.index < b.index) (scopedTasks payload onlyIds idPred) :=
  (load_tasks_pairwise payload).sublist (List.filter_sublist _)

/-- C4: the ready set is exactly the in-scope pending tasks whose
dependencies are all in the completed set of the full queue; it is a
permutation of that filter, sorted by `order` with ties broken by the
insertion index; and recomputation on the same snapshot and filters is the
same list. -/
theorem ready_set_characterization (payload : List RawTask) (onlyIds : List String)
    (idPred : Option (String → Bool)) :
    (∀ t, t ∈ runnable_tasks (scopedTasks payload onlyIds idPred)
            (completedIds (load_tasks payload)) ↔
        (t ∈ scopedTasks payload onlyIds idPred ∧ t.status = "pending" ∧
          ∀ d ∈ t.depends_on, d ∈ completedIds (load_tasks payload))) ∧
    List.Sorted lexLe (runnable_tasks (scopedTasks payload onlyIds idPred)
        (completedIds (load_tasks payload))) ∧
    List.Perm (runnable_tasks (scopedTasks payload onlyIds idPred)
        (completedIds (load_tasks payload)))
      (runnableFilter (scopedTasks payload onlyIds idPred)
        (completedIds (load_tasks payload))) ∧
    runnable_tasks (scopedTasks payload onlyIds idPred) (completedIds (load_tasks payload))
      = runnable_tasks (scopedTasks payload onlyIds idPred)
          (completedIds (load_tasks payload)) := by
  refine ⟨?_, ?_, ?_, rfl⟩
  · intro t
    unfold runnable_tasks
    rw [(List.perm_insertionSort _ _).mem_iff]
    unfold runnableFilter
    rw [List.mem_filter]
    simp [List.all_eq_true]
  · exact insertionSort_sorted_lex _
      ((scopedTasks_pairwise payload onlyIds idPred).sublist (List.filter_sublist _))
  · exact List.perm_insertionSort _ _

/-- C4 witness: on the concrete queue the ready set is sorted and evaluates
to the two tied tasks in insertion order. -/
theorem ready_set_witness :
    List.Sorted lexLe (runnable_tasks (scopedTasks exC4Payload [] none)
        (completedIds (load_tasks exC4Payload))) ∧
    runnable_tasks (scopedTasks exC4Payload [] none) (completedIds (load_tasks exC4Payload))
      = [exC4TaskB, exC4TaskC] :=
  ⟨(ready_set_characterization exC4Payload [] none).2.1, by decide⟩

theorem admitPass_sublist (maxW perWS : Int) (l : List Task) (running active : List String) :
    List.Sublist (admitPass maxW perWS l running active) l := by
  induction l generalizing running active with
  | nil => simp [admitPass]
  | cons t ts ih =>
    simp only [admitPass]
    by_cases h1 : running.contains t.id = true
    · rw [if_pos h1]; exact (ih running active).cons t
    · rw [if_neg h1]
      by_cases h2 : maxW ≤ (running.length : Int)
      · rw [if_pos h2]; exact List.nil_sublist _
      · rw [if_neg h2]
        by_cases h3 : (decide (perWS > 0) && active.contains t.workstream_id) = true
        · rw [if_pos h3]; exact (ih running active).cons t
        · rw [if_neg h3]; exact (ih _ _).cons₂ t

theorem admitPass_conditions (maxW perWS : Int) (l : List Task) :
    ∀ (running active : List String) (i : Nat) (x : Task),
      (admitPass maxW perWS l running active)[i]? = some x →
      ((running.length : Int) + i < maxW ∧
        (perWS > 0 → x.workstream_id ∉ active ∧
          x.workstream_id ∉
            ((admitPass maxW perWS l running active).take i).map (fun t => t.workstream_id))) := by
  induction l with
  | nil => intro running active i x hx; simp [admitPass] at hx
  | cons t ts ih =>
    intro running active i x hx
    simp only [admitPass] at hx ⊢
    by_cases h1 : running.contains t.id = true
    · rw [if_pos h1] at hx ⊢
      exact ih running active i x hx
    · rw [if_neg h1] at hx ⊢
      by_cases h2 : maxW ≤ (running.length : Int)
      · rw [if_pos h2] at hx
        simp at hx
      · rw [if_neg h2] at hx ⊢
        by_cases h3 : (decide (perWS > 0) && active.contains t.workstream_id) = true
        · rw [if_pos h3] at hx ⊢
          exact ih running active i x hx
        · rw [if_neg h3] at hx ⊢
          cases i with
          | zero =>
            simp only [List.getElem?_cons_zero] at hx
            cases Option.some.inj hx
            refine ⟨by omega, ?_⟩
            intro hpw
            have hna : active.contains t.workstream_id = false := by
              cases hh : active.contains t.workstream_id
              · rfl
              · exact absurd (by rw [hh]; simp [hpw]) h3
            refine ⟨by simpa using hna, by simp⟩
          | succ j =>
            simp only [List.getElem?_cons_succ] at hx
            have := ih (t.id :: running) (t.workstream_id :: active) j x hx
            have hlen := this.1
            simp only [List.length_cons] at hlen
            refine ⟨by push_cast at hlen ⊢; omega, ?_⟩
            intro hpw
            have h4 := this.2 hpw
            have h5 : x.workstream_id ≠ t.workstream_id ∧ x.workstream_id ∉ active := by
              constructor
              · intro he; exact h4.1 (he ▸ List.mem_cons_self _ _)
              · intro he; exact h4.1 (List.mem_cons_of_mem _ he)
            refine ⟨h5.2, ?_⟩
            simp only [List.take_succ_cons, List.map_cons, List.mem_cons]
            rintro (he | he)
            · exact h5.1 he
            · exact h4.2 he

theorem admitPass_perWS_zero (maxW : Int) (l : List Task) :
    ∀ (running active : List String),
      admitPass maxW 0 l running active = admitCapOnly maxW l running := by
  induction l with
  | nil => intro running active; simp [admitPass, admitCapOnly]
  | cons t ts ih =>
    intro running active
    simp only [admitPass, admitCapOnly]
    by_cases h1 : running.contains t.id = true
    · rw [if_pos h1, if_pos h1]
      exact ih running active
    · rw [if_neg h1, if_neg h1]
      by_cases h2 : maxW ≤ (running.length : Int)
      · rw [if_pos h2, if_pos h2]
      · rw [if_neg h2, if_neg h2]
        have h3 : (decide ((0 : Int) > 0) && active.contains t.workstream_id) = false := by
          simp
        rw [h3]
        simp only [Bool.false_eq_true, if_false]
        rw [ih _ _]

/-- C5: walking the sorted ready set, the admitted tasks form a subsequence
of it; the i-th admitted task is admitted with strictly fewer than
`max_workers` workers running (`|running| + i < max_workers`), and — when the
per-workstream cap is positive — its workstream is neither active in the
queue (`in_progress`) nor the workstream of an earlier admission of this
pass; and `per_workstream = 0` disables the gate entirely, reducing admission
to the global cap. -/
theorem admission_gates (maxW perWS : Int) (payload : List RawTask) (runnable : List Task)
    (running : List String) :
    List.Sublist (admitPass maxW perWS runnable running (active_workstreams payload)) runnable ∧
    (∀ (i : Nat) (x : Task),
      (admitPass maxW perWS runnable running (active_workstreams payload))[i]? = some x →
      ((running.length : Int) + i < maxW ∧
        (perWS > 0 → x.workstream_id ∉ active_workstreams payload ∧
          x.workstream_id ∉
            ((admitPass maxW perWS runnable running (active_workstreams payload)).take i).map
              (fun t => t.workstream_id)))) ∧
    (perWS = 0 → admitPass maxW perWS runnable running (active_workstreams payload)
        = admitCapOnly maxW runnable running) := by
  refine ⟨admitPass_sublist maxW perWS runnable running _, ?_, ?_⟩
  · intro i x hx
    exact admitPass_conditions maxW perWS runnable running _ i x hx
  · intro h0
    subst h0
    exact admitPass_perWS_zero maxW runnable running _

/-- C5 witness: with the gate disabled the admission equals the cap-only
loop, which admits both concrete ready tasks under a cap of 3. -/
theorem admission_gates_witness :
    admitPass 3 0 exC5Runnable [] (active_workstreams []) = admitCapOnly 3 exC5Runnable [] ∧
    admitCapOnly 3 exC5Runnable [] = exC5Runnable :=
  ⟨(admission_gates 3 0 [] exC5Runnable []).2.2 rfl, by decide⟩

/-- C2: a finished task whose DONE sentinel parses to `status=success`, whose
effective worktree is real (nonempty and not `N/A`), and whose branch tip is
unresolvable or equal to the recorded base SHA, is re-marked blocked with
exactly the claimed blocker, the docs commit message is
`docs: finish <id> (blocked)`, and no worktree-removal effect is emitted. -/
theorem no_commit_blocks (args : Args) (world : World) (ttw tbs : List (String × String))
    (payload : List RawTask) (taskId : String)
    (hst : doneStatusOf world taskId = "success")
    (hthis : (thisTaskOf payload taskId).isSome = true)
    (hwt : (wtOf ttw (thisTaskOf payload taskId) taskId == "") = false)
    (hsha : (branchShaOf world ttw payload taskId == ""
        || branchShaOf world ttw payload taskId == baseShaOf tbs world taskId) = true) :
    (processFinished args world ttw tbs payload taskId).1 =
      update_task payload taskId (setBlocked
        ["No commit produced on branch '" ++ branchOf ttw payload taskId
           ++ "' (likely commit failed)."]
        ["Inspect " ++ runDirOf args taskId ++ "/last_message.md",
         "Inspect " ++ runDirOf args taskId ++ "/worker.log",
         "Re-run the task with a less-restrictive codex sandbox."]) ∧
    Effect.commitDocs ("docs: finish " ++ taskId ++ " (blocked)")
      ∈ (processFinished args world ttw tbs payload taskId).2 ∧
    (∀ w, Effect.removeWorktree w ∉ (processFinished args world ttw tbs payload taskId).2) ∧
    (∃ r ∈ (processFinished args world ttw tbs payload taskId).1,
      pyStrip r.id = taskId ∧ r.status = "blocked" ∧
      r.blockers = ["No commit produced on branch '" ++ branchOf ttw payload taskId
        ++ "' (likely commit failed)."]) := by
  have key : processFinished args world ttw tbs payload taskId =
      (update_task payload taskId (setBlocked
        ["No commit produced on branch '" ++ branchOf ttw payload taskId
           ++ "' (likely commit failed)."]
        ["Inspect " ++ runDirOf args taskId ++ "/last_message.md",
         "Inspect " ++ runDirOf args taskId ++ "/worker.log",
         "Re-run the task with a less-restrictive codex sandbox."]),
       [Effect.writeQueue (update_task payload taskId (setBlocked
          ["No commit produced on branch '" ++ branchOf ttw payload taskId
             ++ "' (likely commit failed)."]
          ["Inspect " ++ runDirOf args taskId ++ "/last_message.md",
           "Inspect " ++ runDirOf args taskId ++ "/worker.log",
           "Re-run the task with a less-restrictive codex sandbox."]))]
         ++ (if world.sessionLogExists then
               [Effect.sessionAppend (sessionEndText world.now
                  (role_label (match thisTaskOf payload taskId with
                               | some t => t.type
                               | none => ""))
                  taskId (wtOf ttw (thisTaskOf payload taskId) taskId)
                  (runDirOf args taskId ++ "/last_message.md")
                  ["- Orchestrator: marked task blocked (no commit produced)"]
                  (world.lastMessage taskId))]
             else [])
         ++ [Effect.commitDocs ("docs: finish " ++ taskId ++ " (blocked)")]) := by
    simp only [processFinished]
    rw [if_neg (fun hc => hc hst), hthis, hwt, hsha]
    rfl
  refine ⟨by rw [key], by rw [key]; simp, ?_, ?_⟩
  · intro w
    rw [key]
    cases hse : world.sessionLogExists <;> simp [hse]
  · rw [key]
    obtain ⟨tsk, htsk⟩ := Option.isSome_iff_exists.mp hthis
    have htmem : tsk ∈ load_tasks payload := List.mem_of_find?_eq_some htsk
    have htid : tsk.id = taskId := by simpa using List.find?_some htsk
    obtain ⟨k, r, hk, -, hrid, -, -⟩ := load_tasks_mem htmem
    have hrmem : r ∈ payload := by
      obtain ⟨hlt, heq⟩ := List.getElem?_eq_some.mp hk
      exact heq ▸ List.getElem_mem hlt
    obtain ⟨r2, -, hr2tid, hr2upd⟩ :=
      update_task_mem_first payload taskId
        (setBlocked
          ["No commit produced on branch '" ++ branchOf ttw payload taskId
             ++ "' (likely commit failed)."]
          ["Inspect " ++ runDirOf args taskId ++ "/last_message.md",
           "Inspect " ++ runDirOf args taskId ++ "/worker.log",
           "Re-run the task with a less-restrictive codex sandbox."])
        ⟨r, hrmem, by rw [hrid, htid]⟩
    exact ⟨_, hr2upd, by simpa [setBlocked] using hr2tid, rfl, rfl⟩

/-- C2 witness: the concrete no-commit scenario is blocked with the claimed
blocker, commits the blocked docs message, and removes no worktree. -/
theorem no_commit_blocks_witness :
    Effect.commitDocs ("docs: finish " ++ "A" ++ " (blocked)")
      ∈ (processFinished { } exC2World exC2Ttw exC2Tbs exC2Payload "A").2 ∧
    Effect.removeWorktree "work/A"
      ∉ (processFinished { } exC2World exC2Ttw exC2Tbs exC2Payload "A").2 ∧
    (processFinished { } exC2World exC2Ttw exC2Tbs exC2Payload "A").1
      = [{ id := "A", status := "blocked", worktree := "work/A", type := "code",
           blockers := ["No commit produced on branch 'A' (likely commit failed)."],
           unblock_steps := ["Inspect /repo/.runs/A/last_message.md",
             "Inspect /repo/.runs/A/worker.log",
             "Re-run the task with a less-restrictive codex sandbox."] }] := by
  have h := no_commit_blocks { } exC2World exC2Ttw exC2Tbs exC2Payload "A"
    (by decide) (by decide) (by decide) (by decide)
  refine ⟨h.2.1, h.2.2.1 "work/A", ?_⟩
  rw [h.1]
  decide

theorem completedFrozen_refl (p : List RawTask) : CompletedFrozen p p :=
  fun _ _ h _ => h

theorem tickInv_refl (p : List RawTask) : TickInv p p :=
  ⟨⟨rfl, fun _ => rfl⟩, completedFrozen_refl p⟩

theorem tickInv_update (p0 p : List RawTask) (tid : String) (f : RawTask → RawTask)
    (hf : ∀ r, (f r).id = r.id) (hav : AvoidsCompleted p0 tid) (hinv : TickInv p0 p) :
    TickInv p0 (update_task p tid f) := by
  obtain ⟨⟨hlen, hids⟩, hfroz⟩ := hinv
  refine ⟨⟨by rw [update_task_length]; exact hlen, ?_⟩, ?_⟩
  · intro i
    rcases update_task_getElem?_cases p tid f i with h | ⟨r, h1, h2, h3⟩
    · rw [h]; exact hids i
    · have := hids i
      rw [h1] at this
      rw [h3]
      simpa [hf r] using this
  · intro i r0 h0 hc
    exact update_task_getElem?_of_ne p tid f i r0 (hfroz i r0 h0 hc) (hav i r0 h0 hc)

theorem uniqueIds_getElem? (p : List RawTask) (hu : UniqueIds p) {i j : Nat}
    {ri rj : RawTask} (hi : p[i]? = some ri) (hj : p[j]? = some rj)
    (hne : pyStrip ri.id ≠ "") (heq : pyStrip ri.id = pyStrip rj.id) : i = j := by
  obtain ⟨hlt1, he1⟩ := List.getElem?_eq_some.mp hi
  obtain ⟨hlt2, he2⟩ := List.getElem?_eq_some.mp hj
  have h := hu ⟨i, hlt1⟩ ⟨j, hlt2⟩
    (by rw [List.get_eq_getElem]; simp only [he1]; exact hne)
    (by rw [List.get_eq_getElem, List.get_eq_getElem]; simp only [he1, he2]; exact heq)
  exact congrArg Fin.val h

theorem avoids_of_good (p0 : List RawTask) (hu : UniqueIds p0) (tid : String)
    (hg : GoodTid p0 tid) : AvoidsCompleted p0 tid := by
  obtain ⟨hne, j, r, hj, hrt, hrs⟩ := hg
  intro i r0 h0 hc heq
  have hij : i = j := uniqueIds_getElem? p0 hu h0 hj (by rw [heq]; exact hne)
    (by rw [heq, hrt])
  subst hij
  rw [h0] at hj
  cases Option.some.inj hj
  exact hrs hc

theorem good_of_mem_runnable (payload : List RawTask) (onlyIds : List String)
    (idPred : Option (String → Bool)) {t : Task}
    (ht : t ∈ runnable_tasks (scopedTasks payload onlyIds idPred)
      (completedIds (load_tasks payload))) :
    GoodTid payload t.id := by
  have h1 : t ∈ runnableFilter (scopedTasks payload onlyIds idPred)
      (completedIds (load_tasks payload)) :=
    (List.perm_insertionSort _ _).subset ht
  have h2 := List.mem_filter.mp h1
  have h3 := List.mem_filter.mp h2.1
  obtain ⟨k, r, hk, -, hrid, hid, hst⟩ := load_tasks_mem h3.1
  have hpend : t.status = "pending" := by
    have hb := h2.2
    simp only [Bool.and_eq_true, beq_iff_eq] at hb
    exact hb.1
  refine ⟨hid, k, r, hk, hrid, ?_⟩
  rw [← hst, hpend]
  decide

theorem good_of_running (p0 : List RawTask) (running : List String)
    (hr : RunningInProgress p0 running) {tid : String} (htid : tid ∈ running) :
    GoodTid p0 tid := by
  obtain ⟨hne, i, hit, his⟩ := hr tid htid
  refine ⟨hne, i.val, p0.get i, ?_, hit, ?_⟩
  · rw [List.get_eq_getElem]
    exact List.getElem?_eq_getElem i.isLt
  · rw [his]; decide

theorem spawnAll_inv (args : Args) (world : World) (p0 : List RawTask) :
    ∀ (admitted : List Task) (ttw tbs : List (String × String)) (p : List RawTask),
      TickInv p0 p → (∀ t ∈ admitted, AvoidsCompleted p0 t.id) →
      TickInv p0 (spawnAll args world ttw tbs p admitted).payload := by
  intro admitted
  induction admitted with
  | nil =>
    intro ttw tbs p hinv hav
    simpa [spawnAll] using hinv
  | cons t ts ih =>
    intro ttw tbs p hinv hav
    simp only [spawnAll]
    exact ih _ _ _
      (tickInv_update p0 p t.id setInProgress (fun r => rfl)
        (hav t (List.mem_cons_self _ _)) hinv)
      (fun u hu => hav u (List.mem_cons_of_mem _ hu))

theorem scanRunning_inv (args : Args) (world : World) (p0 : List RawTask) :
    ∀ (ids : List String) (p : List RawTask),
      TickInv p0 p → (∀ tid ∈ ids, AvoidsCompleted p0 tid) →
      TickInv p0 (scanRunning args world ids p).payload ∧
        ∀ tid ∈ (scanRunning args world ids p).finished, tid ∈ ids := by
  intro ids
  induction ids with
  | nil =>
    intro p hinv hav
    exact ⟨by simpa [scanRunning] using hinv, by simp [scanRunning]⟩
  | cons tid rest ih =>
    intro p hinv hav
    simp only [scanRunning]
    by_cases h1 : world.doneExists tid = true
    · rw [if_pos h1]
      have h3 := ih p hinv (fun u hu => hav u (List.mem_cons_of_mem _ hu))
      refine ⟨h3.1, ?_⟩
      intro u hu
      rcases List.mem_cons.mp hu with rfl | hu2
      · exact List.mem_cons_self _ _
      · exact List.mem_cons_of_mem _ (h3.2 u hu2)
    · rw [if_neg h1]
      by_cases h2 : (world.procExited tid && !world.doneExists tid) = true
      · rw [if_pos h2]
        have h3 := ih (update_task p tid (setBlocked
            ["Worker exited without writing DONE sentinel."]
            ["Inspect " ++ (runDirOf args tid ++ "/worker.log"),
             "Inspect " ++ (runDirOf args tid ++ "/failure.md"),
             "Re-run task with revised prompt."]))
          (tickInv_update p0 p tid _ (fun r => rfl) (hav tid (List.mem_cons_self _ _)) hinv)
          (fun u hu => hav u (List.mem_cons_of_mem _ hu))
        refine ⟨h3.1, ?_⟩
        intro u hu
        rcases List.mem_cons.mp hu with rfl | hu2
        · exact List.mem_cons_self _ _
        · exact List.mem_cons_of_mem _ (h3.2 u hu2)
      · rw [if_neg h2]
        have h3 := ih p hinv (fun u hu => hav u (List.mem_cons_of_mem _ hu))
        exact ⟨h3.1, fun u hu => List.mem_cons_of_mem _ (h3.2 u hu)⟩

theorem processFinished_inv (args : Args) (world : World)
    (ttw tbs : List (String × String)) (p0 p : List RawTask) (taskId : String)
    (hav : AvoidsCompleted p0 taskId) (hinv : TickInv p0 p) :
    TickInv p0 (processFinished args world ttw tbs p taskId).1 := by
  simp only [processFinished]
  split
  · exact tickInv_update p0 p taskId _ (fun r => rfl) hav hinv
  · exact tickInv_update p0 p taskId _ (fun r => rfl) hav hinv
  · exact tickInv_update p0 p taskId _ (fun r => rfl) hav hinv
  · exact tickInv_update p0 p taskId _ (fun r => rfl) hav hinv

theorem finishFold_inv (args : Args) (world : World)
    (ttw tbs : List (String × String)) (p0 : List RawTask) :
    ∀ (ids : List String) (p : List RawTask),
      TickInv p0 p → (∀ tid ∈ ids, AvoidsCompleted p0 tid) →
      TickInv p0 (finishFold args world ttw tbs ids p).1 := by
  intro ids
  induction ids with
  | nil =>
    intro p hinv hav
    simpa [finishFold] using hinv
  | cons tid rest ih =>
    intro p hinv hav
    simp only [finishFold]
    exact ih _
      (processFinished_inv args world ttw tbs p0 p tid (hav tid (List.mem_cons_self _ _)) hinv)
      (fun u hu => hav u (List.mem_cons_of_mem _ hu))

/-- C7: `completed` is terminal.  Under the data model's id uniqueness and
the sole-writer invariant that every running id names an `in_progress`
record, a full tick leaves every record whose normalized status is
`completed` untouched (same position, same record); moreover only tasks of
the ready set — all of status `pending` — are ever admitted by the
admission pass. -/
theorem completed_terminal (args : Args) (world : World) (st : OrchState)
    (payload0 : List RawTask) (hu : UniqueIds payload0)
    (hrun : RunningInProgress payload0 st.running) :
    CompletedFrozen payload0 (tick args world st payload0).payload ∧
    (∀ t ∈ admitPass args.maxWorkers args.perWorkstream
        (runnable_tasks (scopedTasks payload0 args.onlyIds args.idPred)
          (completedIds (load_tasks payload0)))
        st.running (active_workstreams payload0), t.status = "pending") := by
  constructor
  · unfold tick
    by_cases h1 : stopBlockedOf payload0 args.onlyIds ≠ [] ∧ args.stopOnBlocked
    · rw [if_pos h1]
      exact completedFrozen_refl payload0
    · rw [if_neg h1]
      by_cases h2 : args.dryRun = true
      · rw [h2, if_pos rfl]
        rw [(dryTick_pure args world st payload0).2.1]
        exact completedFrozen_refl payload0
      · rw [if_neg h2]
        simp only [runTick]
        by_cases h3 : runnable_tasks (scopedTasks payload0 args.onlyIds args.idPred)
            (completedIds (load_tasks payload0)) = [] ∧ st.running = []
        · rw [if_pos h3]
          exact completedFrozen_refl payload0
        · rw [if_neg h3]
          have hadm : ∀ t ∈ admitPass args.maxWorkers args.perWorkstream
              (runnable_tasks (scopedTasks payload0 args.onlyIds args.idPred)
                (completedIds (load_tasks payload0)))
              st.running (active_workstreams payload0),
              AvoidsCompleted payload0 t.id := by
            intro t ht
            exact avoids_of_good payload0 hu t.id
              (good_of_mem_runnable payload0 args.onlyIds args.idPred
                ((admitPass_sublist _ _ _ _ _).subset ht))
          have hrun1 : ∀ tid ∈ st.running ++ (admitPass args.maxWorkers args.perWorkstream
              (runnable_tasks (scopedTasks payload0 args.onlyIds args.idPred)
                (completedIds (load_tasks payload0)))
              st.running (active_workstreams payload0)).map (fun t => t.id),
              AvoidsCompleted payload0 tid := by
            intro tid htid
            rcases List.mem_append.mp htid with hm | hm
            · exact avoids_of_good payload0 hu tid (good_of_running payload0 st.running hrun hm)
            · obtain ⟨t, htm, rfl⟩ := List.mem_map.mp hm
              exact hadm t htm
          have inv1 := spawnAll_inv args world payload0 _ st.taskToWorktree st.taskBaseSha
            payload0 (tickInv_refl payload0) hadm
          have h4 := scanRunning_inv args world payload0 _ _ inv1 hrun1
          exact (finishFold_inv args world _ _ payload0 _ _ h4.1
            (fun u hu2 => hrun1 u (h4.2 u hu2))).2
  · intro t ht
    have h1 := (admitPass_sublist _ _ _ _ _).subset ht
    have h2 : t ∈ runnableFilter (scopedTasks payload0 args.onlyIds args.idPred)
        (completedIds (load_tasks payload0)) :=
      (List.perm_insertionSort _ _).subset h1
    have hb := (List.mem_filter.mp h2).2
    simp only [Bool.and_eq_true, beq_iff_eq] at hb
    exact hb.1

/-- C7 witness: on the concrete queue (a completed record ahead of a pending
and a running task) the completed record survives the tick unchanged. -/
theorem completed_terminal_witness :
    (tick { } { } exC7St exC7Payload).payload[0]? = some exC7CompletedRec :=
  (completed_terminal { } { } exC7St exC7Payload (by decide) (by decide)).1
    0 exC7CompletedRec (by decide) (by decide)

end Orchestrate
